import Mathlib

/-!
Verification of the sampling core of `monitor.py` (an Intel RAPL + NVIDIA GPU
power monitor).  The Python source is shallowly embedded: every stateful
method becomes a pure function returning both its result and the updated
state; every external read (sysfs counter file, NVML query, psutil query)
becomes an explicit `Option`-valued input; Python floats are modelled as
exact rationals (`ℚ`).
-/

/-! ## RaplDomain (monitor.py lines 38-69)

Mutable state of one RAPL energy-counter domain: `last_energy_uj` and
`last_timestamp`, both initialised to `None` by `__init__`. -/

structure RaplState where
  last_energy_uj : Option Int
  last_timestamp : Option ℚ
deriving DecidableEq

/-- The state `RaplDomain.__init__` produces (both fields `None`). -/
def RaplState.init : RaplState := ⟨none, none⟩

/-- `RaplDomain.sample_power_w` (monitor.py lines 54-69).  The raw read
`self.read_energy_uj()` and the clock value `time.time()` are explicit
inputs (`energy`, `now`); the function returns the optional power value
together with the updated state.  Line 64 of the source is
`delta_t = now - self.last_timestamp if self.last_timestamp else 0`,
a Python *truthiness* test: a stored timestamp equal to `0` is treated
like a missing one and gives `delta_t = 0`. -/
def sample_power_w (st : RaplState) (energy : Option Int) (now : ℚ) :
    Option ℚ × RaplState :=
  match energy with
  | none => (none, st)
  | some e =>
    match st.last_energy_uj with
    | none => (none, ⟨some e, some now⟩)
    | some e0 =>
      let delta_e : ℚ := (e : ℚ) - (e0 : ℚ)
      let delta_t : ℚ :=
        match st.last_timestamp with
        | some t0 => if t0 ≠ 0 then now - t0 else 0
        | none => 0
      if delta_t ≤ 0 then (none, ⟨some e, some now⟩)
      else (some (delta_e / 1000000 / delta_t), ⟨some e, some now⟩)

/-! ## Records and the per-tick sampling (monitor.py lines 291-335)

A record ("row") is an insertion-ordered mapping from metric keys to
scalar values; Python dicts preserve insertion order, so a row is an
association list. -/

inductive Value
  | num (q : ℚ)
  | str (s : String)
  | bool (b : Bool)
deriving DecidableEq

abbrev Row := List (String × Value)

/-- `row.get(k, default)` restricted to lookup: Python dict lookup,
modelled on the association list (keys are inserted at most once). -/
def rowGet (row : Row) (k : String) : Option Value :=
  (row.find? (fun kv => kv.1 == k)).map (fun kv => kv.2)

/-- Python's `round(x, ndigits)` on our exact rationals: scale, round to
the nearest integer, unscale.  (CPython rounds floating-point ties to
even; on the inputs in the claims no tie is involved, and ties cannot be
expressed exactly in binary floats anyway, so half-up rounding of the
exact value is the faithful rational model.) -/
def roundTo (ndigits : ℕ) (x : ℚ) : ℚ :=
  ((round (x * (10 : ℚ) ^ ndigits) : ℤ) : ℚ) / (10 : ℚ) ^ ndigits

/-- One RAPL domain as the main loop holds it: its `name` together with
its mutable counter state. -/
structure Domain where
  name : String
  st : RaplState
deriving DecidableEq

/-- Per-GPU external readings for one tick.  `powerMw` is the raw
`nvmlDeviceGetPowerUsage` milliwatt value; `util` bundles the four
values that `sample_gpu_util` reads together (`util.gpu`, `util.memory`,
`mem.used` bytes, `mem.total` bytes) — `None` when that query raised;
`clockMhz` is `nvmlDeviceGetClockInfo`; `procMemBytes` is the
`usedGpuMemory` of the target pid if it is running on the device. -/
structure GpuEnv where
  powerMw : Option Int
  util : Option (Int × Int × Int × Int)
  clockMhz : Option Int
  procMemBytes : Option Int
deriving DecidableEq

/-- External inputs of one loop iteration (one tick): the tick clock
value `ts`, the formatted `datetime` string, `psutil.cpu_percent()`,
`psutil.cpu_freq().current` (`None` when `cpu_freq()` returned `None`),
the clock value seen by the RAPL reads, one raw `energy_uj` read per
domain (positional), the GPU devices (`index`, readings — the device
list itself is fixed at startup in the program), and the target process
query (`None` = the query raised; otherwise `(cpu_percent, rss bytes)`). -/
structure TickEnv where
  ts : ℚ
  datetimeStr : String
  cpuPercent : ℚ
  cpuFreq : Option ℚ
  raplNow : ℚ
  raplReads : List (Option Int)
  gpus : List (Nat × GpuEnv)
  procRead : Option (ℚ × Int)

/-- The RAPL part of the tick (lines 308-311): each domain samples its
power; a `None` sample contributes no key, a value is rounded to 3
decimals under key `cpu_{name}_power_w`.  Domain states advance. -/
def sampleDomains (now : ℚ) : List Domain → List (Option Int) →
    Row × List Domain
  | [], _ => ([], [])
  | d :: ds, es =>
    let e : Option Int := (es.head?).getD none
    let r := sample_power_w d.st e now
    let rest := sampleDomains now ds es.tail
    let entry : Row :=
      match r.1 with
      | some p => [("cpu_" ++ d.name ++ "_power_w", Value.num (roundTo 3 p))]
      | none => []
    (entry ++ rest.1, ⟨d.name, r.2⟩ :: rest.2)

/-- `sample_power_w` discarded, state kept: the pre-loop warm-up
`for d in rapl_domains: d.sample_power_w()` (lines 288-289). -/
def primeDomains (now : ℚ) (reads : List (Option Int)) (ds : List Domain) :
    List Domain :=
  (sampleDomains now ds reads).2

/-- The accessibility filter run once at startup (lines 259-273): keep
the domains whose throwaway `read_energy_uj()` succeeded (the code
assigns the accessible list when it is nonempty and `[]` otherwise,
which is the same list in both cases). -/
def filterAccessible : List Domain → List (Option Int) → List Domain
  | [], _ => []
  | d :: ds, es =>
    (if ((es.head?).getD none).isSome then [d] else []) ++
      filterAccessible ds es.tail

/-- `sample_gpu_power` (lines 118-122): milliwatts to watts, fail-soft. -/
def gpuPowerW (powerMw : Option Int) : Option ℚ :=
  powerMw.map (fun m => (m : ℚ) / 1000)

/-- The contribution of one GPU to the row (lines 312-326): power
rounded to 1 decimal; the four utilization values and the clock and the
per-process memory unrounded; every key carries the `gpu{index}_`
identification. -/
def sampleGpu (idx : Nat) (g : GpuEnv) (hasTarget : Bool) : Row :=
  (match gpuPowerW g.powerMw with
   | some p => [("gpu" ++ toString idx ++ "_power_w", Value.num (roundTo 1 p))]
   | none => []) ++
  (match g.util with
   | some u =>
     [("gpu" ++ toString idx ++ "_gpu_util_percent", Value.num (u.1 : ℚ)),
      ("gpu" ++ toString idx ++ "_mem_util_percent", Value.num (u.2.1 : ℚ)),
      ("gpu" ++ toString idx ++ "_mem_used_mb", Value.num ((u.2.2.1 : ℚ) / 1048576)),
      ("gpu" ++ toString idx ++ "_mem_total_mb", Value.num ((u.2.2.2 : ℚ) / 1048576))]
   | none => []) ++
  (match g.clockMhz with
   | some f => [("gpu" ++ toString idx ++ "_freq_mhz", Value.num (f : ℚ))]
   | none => []) ++
  (if hasTarget then
     match g.procMemBytes with
     | some b => [("gpu" ++ toString idx ++ "_gpu_proc_mem_used_mb",
                   Value.num ((b : ℚ) / 1048576))]
     | none => []
   else [])

/-- The monitored-process part of the tick (lines 327-335): with a live
target, a successful query adds `proc_cpu_percent` (the psutil value,
stored as returned) and `proc_mem_rss_mb`; a failed query (the process
vanished) adds the sentinel `proc_ended = True` and clears
`target_process`.  Returns the entries and the new target. -/
def sampleProc (target : Option Nat) (read : Option (ℚ × Int)) :
    Row × Option Nat :=
  match target with
  | none => ([], none)
  | some pid =>
    match read with
    | some cm =>
      ([("proc_cpu_percent", Value.num cm.1),
        ("proc_mem_rss_mb", Value.num ((cm.2 : ℚ) / 1048576))], some pid)
    | none => ([("proc_ended", Value.bool true)], none)

/-- One tick's record assembly (lines 297-335): `timestamp` and
`datetime` first, then system CPU usage (1 decimal) and frequency
(0 decimals, only when available), then the RAPL powers, the GPU
metrics, and the monitored-process metrics.  Returns the row, the
advanced domain states and the (possibly cleared) target. -/
def buildRow (env : TickEnv) (domains : List Domain) (target : Option Nat) :
    Row × List Domain × Option Nat :=
  let base : Row :=
    [("timestamp", Value.num env.ts), ("datetime", Value.str env.datetimeStr)]
  let cpuPart : Row :=
    [("cpu_usage_percent", Value.num (roundTo 1 env.cpuPercent))] ++
    (match env.cpuFreq with
     | some f => [("cpu_freq_mhz", Value.num (roundTo 0 f))]
     | none => [])
  let rapl := sampleDomains env.raplNow domains env.raplReads
  let gpuPart : Row :=
    (env.gpus.map (fun gi => sampleGpu gi.1 gi.2 target.isSome)).join
  let proc := sampleProc target env.procRead
  (base ++ cpuPart ++ rapl.1 ++ gpuPart ++ proc.1, rapl.2, proc.2)

/-! ## RecordSink, tabular (csv) encoding (monitor.py lines 336-349)

Lines are modelled as character lists.  `str(v)` for the scalar values:
numbers print exactly (our rationals print as rationals; like Python's
float text, the text never contains a comma, which is the only property
the claims use), Python booleans print `True`/`False`. -/

def renderVal : Value → String
  | .num q => toString q
  | .str s => s
  | .bool b => if b then "True" else "False"

/-- `str(row.get(k, ""))` of line 344: the rendered value, or the empty
string for an absent key. -/
def cellStr (row : Row) (k : String) : String :=
  match rowGet row k with
  | some v => renderVal v
  | none => ""

/-- The projection of line 344: `[row.get(k, "") for k in keys_order]`. -/
def csvLine (keys : List String) (row : Row) : List String :=
  keys.map (cellStr row)

/-- `",".join(...)` on already-rendered fields. -/
def joinComma : List (List Char) → List Char
  | [] => []
  | [x] => x
  | x :: y :: tl => x ++ ',' :: joinComma (y :: tl)

/-- One emitted csv data line (line 345). -/
def csvDataLine (keys : List String) (row : Row) : List Char :=
  joinComma ((csvLine keys row).map String.data)

/-- Sink state: the `header_printed` flag and the frozen `keys_order`
(lines 249-251, 287). -/
structure SinkState where
  headerPrinted : Bool
  keysOrder : List String
deriving DecidableEq

/-- The header line (lines 339-342): the file destination writes the
keys verbatim through `csv.writer`; the stdout destination prefixes the
joined keys with `#`. -/
def csvHeaderLine (toFile : Bool) (ks : List String) : List Char :=
  if toFile then joinComma (ks.map String.data)
  else '#' :: joinComma (ks.map String.data)

/-- One record through the csv branch (lines 336-349): the first record
freezes `keys_order` and emits the header plus its data line; later
records emit one data line projected onto the frozen keys. -/
def emitCsvRecord (toFile : Bool) (st : SinkState) (row : Row) :
    SinkState × List (List Char) :=
  if st.headerPrinted then (st, [csvDataLine st.keysOrder row])
  else
    let ks := row.map Prod.fst
    (⟨true, ks⟩, [csvHeaderLine toFile ks, csvDataLine ks row])

/-- The csv sink over the successive tick records. -/
def csvRun (toFile : Bool) (st : SinkState) : List Row → List (List Char)
  | [] => []
  | r :: rs =>
    (emitCsvRecord toFile st r).2 ++ csvRun toFile (emitCsvRecord toFile st r).1 rs

/-- A rendered string holds no comma (true of every value the program
renders: numbers, booleans, and the comma-free `datetime` format). -/
def noComma (s : String) : Bool :=
  !s.data.any (fun c => c == ',')

def rowCommaFree (row : Row) : Bool :=
  row.all (fun kv => noComma kv.1 && noComma (renderVal kv.2))

/-! ## RecordSink, self-describing (jsonl) encoding (lines 350-354)

`json.dumps(row)` with the default `", "` / `": "` separators, for the
flat string-keyed records the program builds.  String values are quoted;
numbers and booleans serialize as bare tokens. -/

def serVal : Value → List Char
  | .num q => (toString q).data
  | .str s => '\"' :: s.data ++ ['\"']
  | .bool b => (if b then "true" else "false").data

def serItem (kv : String × Value) : List Char :=
  '\"' :: kv.1.data ++ '\"' :: ':' :: ' ' :: serVal kv.2

def joinItems : List (List Char) → List Char
  | [] => []
  | [x] => x
  | x :: y :: tl => x ++ ',' :: ' ' :: joinItems (y :: tl)

def serObj (row : Row) : List Char :=
  '\x7b' :: joinItems (row.map serItem) ++ ['\x7d']

/-- One record through the jsonl branch (lines 350-354): the sink state
is untouched (no frozen schema) and the line is the record's own
serialization. -/
def emitJsonl (st : SinkState) (row : Row) : SinkState × List (List Char) :=
  (st, [serObj row])

/-- A parsed flat JSON value: a quoted string's content, or the raw
token text of an unquoted scalar. -/
inductive PVal
  | pstr (s : List Char)
  | praw (t : List Char)
deriving DecidableEq

/-- What parsing one serialized value should recover. -/
def encVal : Value → PVal
  | .num q => .praw (toString q).data
  | .str s => .pstr s.data
  | .bool b => .praw (if b then "true" else "false").data

/-- What parsing one serialized record should recover: the same keys in
the same order, each with its value's parsed form. -/
def encRow (row : Row) : List (List Char × PVal) :=
  row.map (fun kv => (kv.1.data, encVal kv.2))

/-- Split at the first character satisfying `stop` (kept in the
remainder). -/
def takeUntil (stop : Char → Bool) : List Char → List Char × List Char
  | [] => ([], [])
  | c :: cs =>
    if stop c then ([], c :: cs)
    else
      let p := takeUntil stop cs
      (c :: p.1, p.2)

/-- Parse one flat JSON value: a quoted string, or a bare token running
to the next `,` or closing brace. -/
def parseVal : List Char → Option (PVal × List Char)
  | [] => none
  | c :: cs =>
    if c = '\"' then
      let p := takeUntil (fun x => x == '\"') cs
      match p.2 with
      | d :: rest => if d = '\"' then some (.pstr p.1, rest) else none
      | [] => none
    else
      let p := takeUntil (fun x => x == ',' || x == '\x7d') (c :: cs)
      if p.1.isEmpty then none else some (.praw p.1, p.2)

/-- Parse the `"key": value` items of a flat JSON object (after the
opening brace), `", "`-separated, up to the closing brace.  Fuel bounds
the number of items. -/
def parseItems : ℕ → List Char → Option (List (List Char × PVal))
  | 0, _ => none
  | fuel + 1, cs =>
    match cs with
    | [] => none
    | c :: cs1 =>
      if c = '\"' then
        let p := takeUntil (fun x => x == '\"') cs1
        match p.2 with
        | [] => none
        | d :: rest1 =>
          if d = '\"' then
            match rest1 with
            | e :: f :: rest2 =>
              if e = ':' ∧ f = ' ' then
                match parseVal rest2 with
                | some vr =>
                  match vr.2 with
                  | [] => none
                  | g :: rest3 =>
                    if g = ',' then
                      match rest3 with
                      | h :: rest4 =>
                        if h = ' ' then
                          (parseItems fuel rest4).map (fun l => (p.1, vr.1) :: l)
                        else none
                      | [] => none
                    else
                      if g = '\x7d' ∧ rest3 = [] then some [(p.1, vr.1)]
                      else none
                | none => none
              else none
            | _ => none
          else none
      else none

/-- Parse a whole serialized record back into a mapping. -/
def parseObj (cs : List Char) : Option (List (List Char × PVal)) :=
  match cs with
  | c :: rest =>
    if c = '\x7b' then
      if rest = ['\x7d'] then some [] else parseItems rest.length rest
    else none
  | [] => none

/-- Serializability conditions for a bare token: nonempty, does not look
like a string, and free of the separators the parser stops at. -/
def rawTokenOk (t : List Char) : Bool :=
  !t.isEmpty && t.head? != some '\"' &&
    !t.any (fun c => c == ',' || c == '\x7d') && !t.any (fun c => c == '\"')

/-- The value serializes without escaping: string content without quote
or backslash, scalar tokens well-formed (true of every number and of
`true`/`false`). -/
def valJsonOk : Value → Bool
  | .str s => !s.data.any (fun c => c == '\"' || c == '\\')
  | .num q => rawTokenOk (toString q).data
  | .bool b => rawTokenOk ((if b then "true" else "false") : String).data

def rowJsonOk (row : Row) : Bool :=
  row.all (fun kv => !kv.1.data.any (fun c => c == '\"' || c == '\\') &&
    valJsonOk kv.2)

/-! ## The main loop (monitor.py lines 291-360) and startup (218-296) -/

inductive Fmt
  | csv
  | jsonl
deriving DecidableEq

/-- Emission of one record, dispatching on `args.format` (line 336). -/
def emitRecord (fmt : Fmt) (toFile : Bool) (st : SinkState) (row : Row) :
    SinkState × List (List Char) :=
  match fmt with
  | .csv => emitCsvRecord toFile st row
  | .jsonl => emitJsonl st row

/-- Loop-relevant configuration.  `interval` only determines the
inter-tick sleep, which the loop model sees through the tick-time
hypothesis of the scheduling theorem; `launched` says whether a child
command was spawned (`popen is not None`). -/
structure LoopCfg where
  interval : ℚ
  duration : ℚ
  fmt : Fmt
  toFile : Bool
  launched : Bool

/-- One iteration's external inputs: the tick readings plus whether
`popen.poll()` reported the child finished. -/
structure IterEnv where
  tickEnv : TickEnv
  pollDone : Bool

/-- Mutable loop state: RAPL domain states, the monitored target, and
the sink state. -/
structure LoopState where
  domains : List Domain
  target : Option Nat
  sink : SinkState

inductive StopReason
  | durationElapsed
  | commandFinished
  | fuelOut
deriving DecidableEq

structure LoopResult where
  rows : List Row
  lines : List (List Char)
  reason : StopReason
  state : LoopState

/-- The `while True` loop (lines 291-360), driven by the iteration index
`i` and a fuel bound: the duration stop is checked at the top of each
tick (line 295); then one record is built and emitted; the
command-finished stop (lines 356-358) breaks after emission; otherwise
the loop sleeps and continues.  `fuelOut` marks only that the given
fuel ran out before the loop stopped by itself. -/
def runLoop (cfg : LoopCfg) (envs : ℕ → IterEnv) (start : ℚ) :
    ℕ → ℕ → LoopState → LoopResult
  | 0, _, st => ⟨[], [], .fuelOut, st⟩
  | fuel + 1, i, st =>
    let env := envs i
    if cfg.duration ≠ 0 ∧ cfg.duration ≤ env.tickEnv.ts - start then
      ⟨[], [], .durationElapsed, st⟩
    else
      let b := buildRow env.tickEnv st.domains st.target
      let em := emitRecord cfg.fmt cfg.toFile st.sink b.1
      let st' : LoopState := ⟨b.2.1, b.2.2, em.1⟩
      if cfg.launched = true ∧ env.pollDone = true ∧ b.2.2 = none then
        ⟨[b.1], em.2, .commandFinished, st'⟩
      else
        let r := runLoop cfg envs start fuel (i + 1) st'
        ⟨b.1 :: r.rows, em.2 ++ r.lines, r.reason, r.state⟩

/-- Result of the target-selection code (lines 230-246): whether
`logger.error` ran, whether `main` returned before the loop, whether a
child was spawned, and the monitored pid. -/
structure StartupResult where
  errorLogged : Bool
  aborted : Bool
  launched : Bool
  target : Option Nat
deriving DecidableEq

/-- Python truthiness of `args.command` (`None` or a possibly empty
remainder list). -/
def commandTruthy : Option (List String) → Bool
  | some (_ :: _) => true
  | _ => false

/-- Lines 230-246.  Launch mode: strip a leading `"--"`; an empty
command logs an error and returns (hard).  Attach mode (`args.pid`
nonzero): a failing `psutil.Process(args.pid)` logs an error — and falls
through, `main` does *not* return. -/
def startupTarget (command : Option (List String)) (pid : Nat)
    (attachOk : Bool) (launchPid : Nat) : StartupResult :=
  if commandTruthy command then
    let cmd0 := command.getD []
    let cmd := if cmd0.head? = some "--" then cmd0.tail else cmd0
    if cmd = [] then ⟨true, true, false, none⟩
    else ⟨false, false, true, some launchPid⟩
  else
    if pid ≠ 0 then
      if attachOk then ⟨false, false, false, some pid⟩
      else ⟨true, false, false, none⟩
    else ⟨false, false, false, none⟩

/-- The argument fields `main` consumes. -/
structure MainArgs where
  interval : ℚ
  duration : ℚ
  fmt : Fmt
  toFile : Bool
  command : Option (List String)
  pid : Nat

/-- Startup-time external facts: whether attaching to `args.pid`
succeeds, the spawned child's pid, the throwaway accessibility reads
(lines 259-264), the warm-up reads and clock (lines 288-289), the loop
start time, and the per-iteration inputs. -/
structure MainEnv where
  attachOk : Bool
  launchPid : Nat
  accessReads : List (Option Int)
  primeNow : ℚ
  primeReads : List (Option Int)
  start : ℚ
  iters : ℕ → IterEnv

/-- `main` (lines 218-360) without the argument parsing and logging
glue: select the target, filter and warm up the RAPL domains, then run
the loop — unless startup aborted (empty launch command).  Returns
whether an error was logged at startup, and the loop outcome (`none` =
the loop never ran). -/
def mainModel (args : MainArgs) (ds0 : List Domain) (env : MainEnv)
    (fuel : ℕ) : Bool × Option LoopResult :=
  let su := startupTarget args.command args.pid env.attachOk env.launchPid
  if su.aborted then (su.errorLogged, none)
  else
    let ds1 := primeDomains env.primeNow env.primeReads
      (filterAccessible ds0 env.accessReads)
    (su.errorLogged,
     some (runLoop ⟨args.interval, args.duration, args.fmt, args.toFile, su.launched⟩
       env.iters env.start fuel 0 ⟨ds1, su.target, ⟨false, []⟩⟩))

/-! ## Concrete inputs used by the witnesses and counterexamples -/

/-- A tick with no counters, no GPUs, no target and no frequency. -/
def bareTick (t : ℚ) : TickEnv :=
  ⟨t, "2024-01-01 00:00:00.000", 0, none, 0, [], [], none⟩

/-- Iterations at integer times `0, 1, 2, ...`, child never polled done. -/
def unitIters : ℕ → IterEnv :=
  fun i => ⟨bareTick (i : ℕ), false⟩

/-- A tick whose process query returns `cpu_percent = 12.34` (more than
one decimal) and 1 MiB of RSS. -/
def procTick : TickEnv :=
  ⟨0, "d", 0, none, 0, [], [], some (617 / 50, 1048576)⟩

/-- A tick carrying one GPU (index 0, 5000 mW) and a process reading,
plus an available CPU frequency. -/
def fullTick : TickEnv :=
  ⟨1, "d", 2, some 3, 0, [], [(0, ⟨some 5000, none, none, none⟩)], some (7, 1048576)⟩

/-- Attach-mode arguments: pid 7, 1 s duration, 1 s interval, csv. -/
def attachArgs : MainArgs :=
  ⟨1, 1, Fmt.csv, true, none, 7⟩

/-- Startup environment in which attaching fails. -/
def attachFailEnv : MainEnv :=
  ⟨false, 0, [], 0, [], 0, unitIters⟩

/-- Loop configuration for the scheduling witness: interval 1, duration 1. -/
def unitCfg : LoopCfg :=
  ⟨1, 1, Fmt.csv, true, false⟩

/-- Empty loop state. -/
def emptyLoopState : LoopState :=
  ⟨[], none, ⟨false, []⟩⟩

/-- Concrete rows for the tabular-sink witness. -/
def rowA : Row := [("a", Value.str "x"), ("b", Value.bool true)]

def rowB : Row := [("a", Value.str "y")]

def rowC : Row := [("b", Value.bool false), ("c", Value.str "z")]

/-- A concrete record for the jsonl witness, one value of each kind. -/
def jsonRow : Row :=
  [("timestamp", Value.num 3),
   ("datetime", Value.str "2024-01-01 00:00:00.000"),
   ("ok", Value.bool true)]

/-! # Theorems -/

/-! ## EnergyCounter claims (C1, C2, C3, C10) -/

/-- C2: the first `sample_power_w()` call on a freshly constructed
`RaplDomain` returns `None`, whatever the raw reading (even a successful
one) and whatever the clock says. -/
theorem first_sample_returns_none (energy : Option Int) (now : ℚ) :
    (sample_power_w RaplState.init energy now).1 = none := by
  cases energy <;> rfl

/-- C3: whenever the raw read succeeds, `sample_power_w` advances the
stored state to the new reading and timestamp — even when it returns no
power value; and with an existing baseline, if the elapsed time
`now - t0` is `≤ 0` the call returns `None` (while the state still
advances). -/
theorem sample_updates_state (st : RaplState) (e : Int) (now : ℚ) :
    (sample_power_w st (some e) now).2 = ⟨some e, some now⟩ ∧
    (∀ t0 : ℚ, st.last_timestamp = some t0 → now - t0 ≤ 0 →
      (sample_power_w st (some e) now).1 = none) := by
  constructor
  · cases h0 : st.last_energy_uj with
    | none => simp [sample_power_w, h0]
    | some e0 =>
      cases ht : st.last_timestamp with
      | none => simp [sample_power_w, h0, ht]
      | some t0 =>
        by_cases hz : t0 ≠ 0 <;> by_cases hd : now - t0 ≤ 0 <;>
          simp [sample_power_w, h0, ht, hz, hd]
  · intro t0 ht hle
    cases h0 : st.last_energy_uj with
    | none => simp [sample_power_w, h0]
    | some e0 =>
      by_cases hz : t0 ≠ 0
      · simp [sample_power_w, h0, ht, hz, hle]
      · simp [sample_power_w, h0, ht, hz]

/-- Witness for C3 at a concrete state: baseline `(5 μJ, t = 2)`, new
read `3 μJ` at `now = 1` (elapsed `-1 ≤ 0`): state advances, result is
`None`. -/
theorem sample_updates_state_witness :
    (sample_power_w ⟨some 5, some 2⟩ (some 3) 1).2 = ⟨some 3, some 1⟩ ∧
    (sample_power_w ⟨some 5, some 2⟩ (some 3) 1).1 = none := by
  refine ⟨(sample_updates_state ⟨some 5, some 2⟩ 3 1).1, ?_⟩
  exact (sample_updates_state ⟨some 5, some 2⟩ 3 1).2 2 rfl (by norm_num)

/-- C1 counterexample: a baseline of `e0 = 0 μJ` stored at timestamp
`t0 = 0`, a successful read `e1 = 1000000 > e0` at `now = 1` (so the
elapsed time is `1 - 0 > 0`).  The claim says the call returns
`(e1 - e0) / 1e6 / Δt = 1 W`; the code's truthiness test on
`self.last_timestamp` (line 64) sees `0` as falsy, sets `delta_t = 0`
and returns `None`. -/
theorem sample_at_zero_timestamp_none :
    (0 : Int) < 1000000 ∧ (0 : ℚ) < 1 - 0 ∧
    (sample_power_w ⟨some 0, some 0⟩ (some 1000000) 1).1 ≠
      some ((((1000000 : ℚ) - 0) / 1000000) / (1 - 0)) := by
  refine ⟨by norm_num, by norm_num, ?_⟩
  simp [sample_power_w]

/-- C1 (amended): with a baseline `(e0, t0)` whose stored timestamp is
*nonzero*, a successful read `e1 > e0` at a time `now` with
`now - t0 > 0` returns exactly `(e1 - e0) / 1e6 / (now - t0)`. -/
theorem sample_power_formula (e0 e1 : Int) (t0 now : ℚ)
    (hz : t0 ≠ 0) (hlt : e0 < e1) (hdt : 0 < now - t0) :
    (sample_power_w ⟨some e0, some t0⟩ (some e1) now).1 =
      some ((((e1 : ℚ) - (e0 : ℚ)) / 1000000) / (now - t0)) := by
  simp [sample_power_w, hz, not_le.mpr hdt]

/-- Witness for C1 (amended): baseline `(0 μJ, t = 1)`, read `500000 μJ`
at `now = 2` gives `0.5 W`. -/
theorem sample_power_formula_witness :
    (sample_power_w ⟨some 0, some 1⟩ (some 500000) 2).1 =
      some ((((500000 : ℚ) - (0 : ℚ)) / 1000000) / (2 - 1)) :=
  sample_power_formula 0 500000 1 2 (by norm_num) (by norm_num) (by norm_num)

/-- C10 counterexample: baseline `e0 = 2000000 μJ` at timestamp `0`,
read `e1 = 1000000 < e0` at `now = 1`.  The claim says the negative
power `(e1 - e0) / 1e6 / 1 = -1 W` is returned; because of the
truthiness test on the zero timestamp the code returns `None`. -/
theorem sample_wraparound_zero_timestamp_none :
    (1000000 : Int) < 2000000 ∧ (0 : ℚ) < 1 - 0 ∧
    (sample_power_w ⟨some 2000000, some 0⟩ (some 1000000) 1).1 ≠
      some ((((1000000 : ℚ) - 2000000) / 1000000) / (1 - 0)) := by
  refine ⟨by norm_num, by norm_num, ?_⟩
  simp [sample_power_w]

/-- C10 (amended): with a baseline whose stored timestamp is nonzero, a
successful read `e1 < e0` (counter wraparound) with elapsed time
`now - t0 > 0` returns the *negative* value `(e1 - e0) / 1e6 / (now - t0)`
— a negative delta is not clamped to `None`. -/
theorem sample_negative_delta_returned (e0 e1 : Int) (t0 now : ℚ)
    (hz : t0 ≠ 0) (hlt : e1 < e0) (hdt : 0 < now - t0) :
    (sample_power_w ⟨some e0, some t0⟩ (some e1) now).1 =
      some ((((e1 : ℚ) - (e0 : ℚ)) / 1000000) / (now - t0)) ∧
    (((e1 : ℚ) - (e0 : ℚ)) / 1000000) / (now - t0) < 0 := by
  refine ⟨by simp [sample_power_w, hz, not_le.mpr hdt], ?_⟩
  apply div_neg_of_neg_of_pos _ hdt
  apply div_neg_of_neg_of_pos _ (by norm_num)
  have : (e1 : ℚ) < (e0 : ℚ) := by exact_mod_cast hlt
  linarith

/-- Witness for C10 (amended): baseline `(2000000 μJ, t = 1)`, read
`1000000 μJ` at `now = 2` gives `-1 W`. -/
theorem sample_negative_delta_returned_witness :
    (sample_power_w ⟨some 2000000, some 1⟩ (some 1000000) 2).1 =
      some ((((1000000 : ℚ) - (2000000 : ℚ)) / 1000000) / (2 - 1)) ∧
    (((1000000 : ℚ) - (2000000 : ℚ)) / 1000000) / (2 - 1) < 0 :=
  sample_negative_delta_returned 2000000 1000000 1 2 (by norm_num)
    (by norm_num) (by norm_num)

/-! ## Helper lemmas on record keys -/

theorem data_head_append (s t : String) (c : Char)
    (h : s.data.head? = some c) : (s ++ t).data.head? = some c := by
  rw [String.data_append]
  cases hs : s.data with
  | nil => rw [hs] at h; exact absurd h (by simp)
  | cons a l =>
    rw [hs] at h
    simp only [List.head?, Option.some.injEq] at h
    subst h
    rfl

theorem ne_of_head_ne {s t : String} (h : s.data.head? ≠ t.data.head?) :
    s ≠ t := by
  intro he
  subst he
  exact h rfl

theorem sampleDomains_key_head (now : ℚ) :
    ∀ (ds : List Domain) (es : List (Option Int)) kv,
      kv ∈ (sampleDomains now ds es).1 → kv.1.data.head? = some 'c' := by
  intro ds
  induction ds with
  | nil => intro es kv h; simp [sampleDomains] at h
  | cons d ds ih =>
    intro es kv h
    simp only [sampleDomains] at h
    rcases List.mem_append.mp h with h | h
    · split at h
      · simp only [List.mem_singleton] at h
        subst h
        exact data_head_append _ _ _ (data_head_append "cpu_" _ _ rfl)
      · simp at h
    · exact ih es.tail kv h

theorem sampleDomains_val (now : ℚ) :
    ∀ (ds : List Domain) (es : List (Option Int)) kv,
      kv ∈ (sampleDomains now ds es).1 →
      ∃ q : ℚ, kv.2 = Value.num (roundTo 3 q) := by
  intro ds
  induction ds with
  | nil => intro es kv h; simp [sampleDomains] at h
  | cons d ds ih =>
    intro es kv h
    simp only [sampleDomains] at h
    rcases List.mem_append.mp h with h | h
    · split at h
      · simp only [List.mem_singleton] at h
        subst h
        exact ⟨_, rfl⟩
      · simp at h
    · exact ih es.tail kv h

theorem sampleGpu_key_head (idx : Nat) (g : GpuEnv) (b : Bool) :
    ∀ kv ∈ sampleGpu idx g b, kv.1.data.head? = some 'g' := by
  have hg : ∀ suf : String, ("gpu" ++ toString idx ++ suf).data.head? = some 'g' :=
    fun suf => data_head_append _ suf 'g' (data_head_append "gpu" _ 'g' rfl)
  intro kv hkv
  simp only [sampleGpu, List.mem_append] at hkv
  rcases hkv with ((h | h) | h) | h
  · split at h
    · simp only [List.mem_singleton] at h; subst h; exact hg _
    · simp at h
  · split at h
    · simp only [List.mem_cons, List.mem_singleton] at h
      rcases h with h | h | h | h | h <;> first
        | (subst h; exact hg _)
        | simp at h
    · simp at h
  · split at h
    · simp only [List.mem_singleton] at h; subst h; exact hg _
    · simp at h
  · split at h
    · split at h
      · simp only [List.mem_singleton] at h; subst h; exact hg _
      · simp at h
    · simp at h

theorem mem_buildRow_of_mem_gpu {env : TickEnv} {ds : List Domain}
    {tgt : Option Nat} {kv : String × Value} (g : Nat × GpuEnv)
    (hg : g ∈ env.gpus) (hkv : kv ∈ sampleGpu g.1 g.2 tgt.isSome) :
    kv ∈ (buildRow env ds tgt).1 := by
  have hjoin : kv ∈ (env.gpus.map (fun gi => sampleGpu gi.1 gi.2 tgt.isSome)).join :=
    List.mem_join.mpr ⟨sampleGpu g.1 g.2 tgt.isSome,
      List.mem_map_of_mem _ hg, hkv⟩
  simp only [buildRow]
  exact List.mem_append_left _ (List.mem_append_right _ hjoin)

/-! ## C7: the numeric presentation contract -/

/-- C7 (amended): the roundings the tick actually applies — system CPU
usage to 1 decimal, CPU frequency to 0 decimals, every counter power to
3 decimals, every accelerator power to 1 decimal — while the monitored
process's CPU percentage is stored exactly as the process query returned
it, with no rounding applied by this code. -/
theorem record_rounding_contract (env : TickEnv) (ds : List Domain)
    (tgt : Option Nat) :
    ("cpu_usage_percent", Value.num (roundTo 1 env.cpuPercent)) ∈
      (buildRow env ds tgt).1 ∧
    (∀ f, env.cpuFreq = some f →
      ("cpu_freq_mhz", Value.num (roundTo 0 f)) ∈ (buildRow env ds tgt).1) ∧
    (∀ kv ∈ (sampleDomains env.raplNow ds env.raplReads).1,
      ∃ q : ℚ, kv.2 = Value.num (roundTo 3 q)) ∧
    (∀ g ∈ env.gpus, ∀ m : Int, g.2.powerMw = some m →
      ("gpu" ++ toString g.1 ++ "_power_w", Value.num (roundTo 1 ((m : ℚ) / 1000))) ∈
        (buildRow env ds tgt).1) ∧
    (∀ (p : Nat) (cm : ℚ × Int), tgt = some p → env.procRead = some cm →
      ("proc_cpu_percent", Value.num cm.1) ∈ (buildRow env ds tgt).1) := by
  refine ⟨?_, ?_, ?_, ?_, ?_⟩
  · simp [buildRow]
  · intro f hf
    simp [buildRow, hf]
  · exact sampleDomains_val env.raplNow ds env.raplReads
  · intro g hg m hm
    exact mem_buildRow_of_mem_gpu g hg (by simp [sampleGpu, gpuPowerW, hm])
  · intro p cm ht hr
    subst ht
    simp [buildRow, sampleProc, hr]

/-- Witness for C7 (amended) on `fullTick`: CPU usage 2 → `roundTo 1 2`,
frequency 3 → `roundTo 0 3`, GPU power 5000 mW → `roundTo 1 5`, process
CPU 7 stored raw. -/
theorem record_rounding_contract_witness :
    ("cpu_usage_percent", Value.num (roundTo 1 (2 : ℚ))) ∈
      (buildRow fullTick [] (some 4)).1 ∧
    ("cpu_freq_mhz", Value.num (roundTo 0 (3 : ℚ))) ∈
      (buildRow fullTick [] (some 4)).1 ∧
    ("gpu" ++ toString 0 ++ "_power_w", Value.num (roundTo 1 ((5000 : ℚ) / 1000))) ∈
      (buildRow fullTick [] (some 4)).1 ∧
    ("proc_cpu_percent", Value.num 7) ∈ (buildRow fullTick [] (some 4)).1 := by
  refine ⟨(record_rounding_contract fullTick [] (some 4)).1,
    (record_rounding_contract fullTick [] (some 4)).2.1 3 rfl,
    (record_rounding_contract fullTick [] (some 4)).2.2.2.1
      (0, ⟨some 5000, none, none, none⟩) (by simp [fullTick]) 5000 rfl,
    (record_rounding_contract fullTick [] (some 4)).2.2.2.2 4 (7, 1048576) rfl rfl⟩

/-- C7 counterexample: a tick whose process query reports
`cpu_percent = 12.34` puts the value `12.34` into the record unchanged —
not the 1-decimal rounding `12.3` the claim requires for percentage
values. -/
theorem proc_cpu_percent_unrounded :
    rowGet (buildRow procTick [] (some 1)).1 "proc_cpu_percent" =
      some (Value.num (617 / 50)) ∧
    roundTo 1 ((617 : ℚ) / 50) ≠ (617 : ℚ) / 50 := by
  constructor
  · simp [buildRow, procTick, sampleProc, sampleDomains, rowGet, List.find?]
  · rw [roundTo, round_eq]
    norm_num

/-! ## C8: target process disappearance is soft -/

theorem mem_proc_of_p_key (env : TickEnv) (ds : List Domain)
    (tgt : Option Nat) (kv : String × Value)
    (hkv : kv ∈ (buildRow env ds tgt).1) (hp : kv.1.data.head? = some 'p') :
    kv ∈ (sampleProc tgt env.procRead).1 := by
  simp only [buildRow, List.mem_append] at hkv
  rcases hkv with (((h | (h | h)) | h) | h) | h
  · simp only [List.mem_cons, List.mem_singleton, List.not_mem_nil,
      or_false] at h
    rcases h with h | h
    · subst h
      exact absurd (show ("timestamp" : String).data.head? = some 'p' from hp)
        (by decide)
    · subst h
      exact absurd (show ("datetime" : String).data.head? = some 'p' from hp)
        (by decide)
  · simp only [List.mem_singleton] at h
    subst h
    exact absurd (show ("cpu_usage_percent" : String).data.head? = some 'p' from hp)
      (by decide)
  · split at h
    · simp only [List.mem_singleton] at h
      subst h
      exact absurd (show ("cpu_freq_mhz" : String).data.head? = some 'p' from hp)
        (by decide)
    · simp at h
  · have := sampleDomains_key_head env.raplNow ds env.raplReads kv h
    rw [this] at hp
    exact absurd hp (by decide)
  · rcases List.mem_join.mp h with ⟨l, hl, hmem⟩
    rcases List.mem_map.mp hl with ⟨gi, _, rfl⟩
    have := sampleGpu_key_head gi.1 gi.2 tgt.isSome kv hmem
    rw [this] at hp
    exact absurd hp (by decide)
  · exact h

/-- C8: when the process query of a tick fails (process vanished), the
tick still produces a record: it carries the `proc_ended = True`
sentinel instead of `proc_cpu_percent` / `proc_mem_rss_mb`, the target
is cleared (marked Ended); every later tick runs with no target, so it
attempts no process query and adds none of those keys; and whenever the
duration stop has not hit and no child command was launched, the loop
performs the tick and continues into the next iteration. -/
theorem proc_vanished_soft (env : TickEnv) (ds : List Domain) (pid : Nat)
    (h : env.procRead = none) :
    ("proc_ended", Value.bool true) ∈ (buildRow env ds (some pid)).1 ∧
    (∀ v, ("proc_cpu_percent", v) ∉ (buildRow env ds (some pid)).1) ∧
    (∀ v, ("proc_mem_rss_mb", v) ∉ (buildRow env ds (some pid)).1) ∧
    (buildRow env ds (some pid)).2.2 = none ∧
    (∀ (env2 : TickEnv) (ds2 : List Domain),
      (buildRow env2 ds2 none).2.2 = none ∧
      (∀ v, ("proc_cpu_percent", v) ∉ (buildRow env2 ds2 none).1) ∧
      (∀ v, ("proc_ended", v) ∉ (buildRow env2 ds2 none).1)) ∧
    (∀ (cfg : LoopCfg) (envs : ℕ → IterEnv) (start : ℚ) (fuel i : ℕ)
      (st : LoopState), cfg.launched = false →
      ¬ (cfg.duration ≠ 0 ∧ cfg.duration ≤ (envs i).tickEnv.ts - start) →
      runLoop cfg envs start (fuel + 1) i st =
        ⟨(buildRow (envs i).tickEnv st.domains st.target).1 ::
            (runLoop cfg envs start fuel (i + 1)
              ⟨(buildRow (envs i).tickEnv st.domains st.target).2.1,
               (buildRow (envs i).tickEnv st.domains st.target).2.2,
               (emitRecord cfg.fmt cfg.toFile st.sink
                 (buildRow (envs i).tickEnv st.domains st.target).1).1⟩).rows,
          (emitRecord cfg.fmt cfg.toFile st.sink
            (buildRow (envs i).tickEnv st.domains st.target).1).2 ++
            (runLoop cfg envs start fuel (i + 1)
              ⟨(buildRow (envs i).tickEnv st.domains st.target).2.1,
               (buildRow (envs i).tickEnv st.domains st.target).2.2,
               (emitRecord cfg.fmt cfg.toFile st.sink
                 (buildRow (envs i).tickEnv st.domains st.target).1).1⟩).lines,
          (runLoop cfg envs start fuel (i + 1)
            ⟨(buildRow (envs i).tickEnv st.domains st.target).2.1,
             (buildRow (envs i).tickEnv st.domains st.target).2.2,
             (emitRecord cfg.fmt cfg.toFile st.sink
               (buildRow (envs i).tickEnv st.domains st.target).1).1⟩).reason,
          (runLoop cfg envs start fuel (i + 1)
            ⟨(buildRow (envs i).tickEnv st.domains st.target).2.1,
             (buildRow (envs i).tickEnv st.domains st.target).2.2,
             (emitRecord cfg.fmt cfg.toFile st.sink
               (buildRow (envs i).tickEnv st.domains st.target).1).1⟩).state⟩) := by
  refine ⟨?_, ?_, ?_, ?_, ?_, ?_⟩
  · simp only [buildRow]
    exact List.mem_append_right _ (by simp [sampleProc, h])
  · intro v hv
    have hm := mem_proc_of_p_key env ds (some pid) _ hv rfl
    rw [h] at hm
    simp only [sampleProc, List.mem_singleton, Prod.mk.injEq] at hm
    exact absurd hm.1 (by decide)
  · intro v hv
    have hm := mem_proc_of_p_key env ds (some pid) _ hv rfl
    rw [h] at hm
    simp only [sampleProc, List.mem_singleton, Prod.mk.injEq] at hm
    exact absurd hm.1 (by decide)
  · simp [buildRow, sampleProc, h]
  · intro env2 ds2
    refine ⟨by simp [buildRow, sampleProc], ?_, ?_⟩
    · intro v hv
      have hm := mem_proc_of_p_key env2 ds2 none _ hv rfl
      simp only [sampleProc, List.not_mem_nil] at hm
    · intro v hv
      have hm := mem_proc_of_p_key env2 ds2 none _ hv rfl
      simp only [sampleProc, List.not_mem_nil] at hm
  · intro cfg envs start fuel i st hl hdur
    simp only [runLoop]
    rw [if_neg hdur, if_neg (by simp [hl])]

/-- Witness for C8 at a concrete tick (`bareTick 0`, target pid 9, query
failed): the sentinel is present, the target is cleared, and the loop
(attach mode, duration 1, tick times 0, 1, ...) goes on to perform one
record before the duration stop. -/
theorem proc_vanished_soft_witness :
    ("proc_ended", Value.bool true) ∈ (buildRow (bareTick 0) [] (some 9)).1 ∧
    (buildRow (bareTick 0) [] (some 9)).2.2 = none ∧
    (runLoop unitCfg unitIters 0 (0 + 1) 0 emptyLoopState).rows.length = 1 := by
  refine ⟨(proc_vanished_soft (bareTick 0) [] 9 rfl).1,
    (proc_vanished_soft (bareTick 0) [] 9 rfl).2.2.2.1, ?_⟩
  have heq := (proc_vanished_soft (bareTick 0) [] 9 rfl).2.2.2.2.2 unitCfg
    unitIters 0 0 0 emptyLoopState rfl
    (by norm_num [unitCfg, unitIters, bareTick])
  rw [heq]
  simp [runLoop]

/-! ## C9: duration stop bounds the number of ticks -/

theorem runLoop_rows_le (cfg : LoopCfg) (envs : ℕ → IterEnv) (start : ℚ) :
    ∀ (fuel i : ℕ) (st : LoopState),
      (runLoop cfg envs start fuel i st).rows.length ≤ fuel := by
  intro fuel
  induction fuel with
  | zero => intro i st; simp [runLoop]
  | succ f ih =>
    intro i st
    simp only [runLoop]
    split
    · simp
    · split
      · simp
      · simpa using ih (i + 1) _

theorem runLoop_reason_aux (cfg : LoopCfg) (envs : ℕ → IterEnv) (start : ℚ)
    (hD : 0 < cfg.duration) (hI : 0 < cfg.interval)
    (hts : ∀ j : ℕ, start + (j : ℚ) * cfg.interval ≤ (envs j).tickEnv.ts) :
    ∀ (fuel i : ℕ) (st : LoopState),
      ⌈cfg.duration / cfg.interval⌉₊ < i + fuel → 0 < fuel →
      (runLoop cfg envs start fuel i st).reason ≠ StopReason.fuelOut := by
  intro fuel
  induction fuel with
  | zero => intro i st _ h0; exact absurd h0 (by simp)
  | succ f ih =>
    intro i st hN _
    simp only [runLoop]
    split
    · simp
    · rename_i hdur
      split
      · simp
      · have hi : i < ⌈cfg.duration / cfg.interval⌉₊ := by
          by_contra hge
          push_neg at hge
          apply hdur
          refine ⟨ne_of_gt hD, ?_⟩
          have h1 : cfg.duration / cfg.interval ≤
              ((⌈cfg.duration / cfg.interval⌉₊ : ℕ) : ℚ) := Nat.le_ceil _
          have h2 : ((⌈cfg.duration / cfg.interval⌉₊ : ℕ) : ℚ) ≤ (i : ℚ) := by
            exact_mod_cast hge
          have h3 : cfg.duration ≤ (i : ℚ) * cfg.interval :=
            (div_le_iff hI).mp (h1.trans h2)
          have h4 := hts i
          linarith
        have hf : 0 < f := by omega
        simpa using ih (i + 1) _ (by omega) hf

/-- C9: with duration `D > 0` and interval `I > 0`, and tick clock
values that respect the per-tick sleep (`ts 0 ≥ start`, each next tick
at least `I` later), the loop stops by itself within `⌈D / I⌉ + 1`
iterations — running it with that much fuel never reports `fuelOut` —
and the number of records it emits is at most `⌈D / I⌉ + 1`. -/
theorem loop_duration_bound (cfg : LoopCfg) (envs : ℕ → IterEnv)
    (start : ℚ) (st0 : LoopState) (hD : 0 < cfg.duration)
    (hI : 0 < cfg.interval) (h0 : start ≤ (envs 0).tickEnv.ts)
    (hstep : ∀ j : ℕ,
      (envs j).tickEnv.ts + cfg.interval ≤ (envs (j + 1)).tickEnv.ts) :
    (runLoop cfg envs start (⌈cfg.duration / cfg.interval⌉₊ + 1) 0 st0).reason ≠
      StopReason.fuelOut ∧
    (runLoop cfg envs start (⌈cfg.duration / cfg.interval⌉₊ + 1) 0
      st0).rows.length ≤ ⌈cfg.duration / cfg.interval⌉₊ + 1 := by
  have hts : ∀ j : ℕ, start + (j : ℚ) * cfg.interval ≤ (envs j).tickEnv.ts := by
    intro j
    induction j with
    | zero => simpa using h0
    | succ n ihn =>
      have hrw : start + ((n + 1 : ℕ) : ℚ) * cfg.interval =
          (start + (n : ℚ) * cfg.interval) + cfg.interval := by
        push_cast
        ring
      rw [hrw]
      have := hstep n
      linarith
  exact ⟨runLoop_reason_aux cfg envs start hD hI hts _ 0 st0 (by omega)
      (by omega),
    runLoop_rows_le cfg envs start _ 0 st0⟩

/-- Witness for C9: interval 1, duration 1, ticks at times 0, 1, 2, ...:
the loop stops by itself and emits at most `⌈1/1⌉ + 1 = 2` records. -/
theorem loop_duration_bound_witness :
    (runLoop unitCfg unitIters 0 (⌈unitCfg.duration / unitCfg.interval⌉₊ + 1) 0
      emptyLoopState).reason ≠ StopReason.fuelOut ∧
    (runLoop unitCfg unitIters 0 (⌈unitCfg.duration / unitCfg.interval⌉₊ + 1) 0
      emptyLoopState).rows.length ≤ ⌈unitCfg.duration / unitCfg.interval⌉₊ + 1 :=
  loop_duration_bound unitCfg unitIters 0 emptyLoopState
    (by norm_num [unitCfg]) (by norm_num [unitCfg])
    (by norm_num [unitIters, bareTick])
    (fun j => by
      simp only [unitIters, bareTick, unitCfg]
      push_cast
      linarith)

/-! ## C6: an unreachable target pid at startup -/

/-- C6 (amended): when an explicit pid is given and attaching fails at
startup, the program logs an error — and then *continues*: `main` does
not return, the sampling loop still runs (with no monitored process),
exactly as it would in no-target mode. -/
theorem attach_failure_continues (args : MainArgs) (ds0 : List Domain)
    (env : MainEnv) (fuel : ℕ)
    (hc : commandTruthy args.command = false) (hp : args.pid ≠ 0)
    (ha : env.attachOk = false) :
    (mainModel args ds0 env fuel).1 = true ∧
    (mainModel args ds0 env fuel).2 =
      some (runLoop ⟨args.interval, args.duration, args.fmt, args.toFile, false⟩
        env.iters env.start fuel 0
        ⟨primeDomains env.primeNow env.primeReads
          (filterAccessible ds0 env.accessReads), none, ⟨false, []⟩⟩) := by
  have hsu : startupTarget args.command args.pid env.attachOk env.launchPid =
      ⟨true, false, false, none⟩ := by
    simp [startupTarget, hc, hp, ha]
  constructor <;> simp [mainModel, hsu]

/-- Witness for C6 (amended): pid 7, attach fails, duration 1 s at
interval 1 s: the error flag is set and the loop still runs. -/
theorem attach_failure_continues_witness :
    (mainModel attachArgs [] attachFailEnv 2).1 = true ∧
    (mainModel attachArgs [] attachFailEnv 2).2 =
      some (runLoop ⟨attachArgs.interval, attachArgs.duration, attachArgs.fmt,
        attachArgs.toFile, false⟩ attachFailEnv.iters attachFailEnv.start 2 0
        ⟨primeDomains attachFailEnv.primeNow attachFailEnv.primeReads
          (filterAccessible [] attachFailEnv.accessReads), none, ⟨false, []⟩⟩) :=
  attach_failure_continues attachArgs [] attachFailEnv 2 rfl (by decide) rfl

/-- C6 counterexample: with pid 7 unreachable (duration 1 s, interval
1 s, ticks at 0, 1, ...), the claim says no sampling loop runs and no
records are emitted; the code logs the error, runs the loop anyway, and
emits one record before the duration stop. -/
theorem attach_failure_emits_records :
    (mainModel attachArgs [] attachFailEnv 2).1 = true ∧
    ((mainModel attachArgs [] attachFailEnv 2).2.map
      (fun r => r.rows.length)) = some 1 := by
  have hmain : mainModel attachArgs [] attachFailEnv 2 =
      (true, some (runLoop ⟨1, 1, Fmt.csv, true, false⟩ unitIters 0 2 0
        ⟨[], none, ⟨false, []⟩⟩)) := by
    simp [mainModel, startupTarget, commandTruthy, attachArgs, attachFailEnv,
      primeDomains, sampleDomains, filterAccessible]
  rw [hmain]
  refine ⟨rfl, ?_⟩
  rw [show (2 : ℕ) = 1 + 1 from rfl]
  simp only [runLoop, Option.map_some]
  norm_num [unitIters, bareTick]

/-! ## C4: the tabular encoding keeps the frozen schema -/

theorem noComma_iff (s : String) : noComma s = true ↔ ',' ∉ s.data := by
  unfold noComma
  rw [Bool.not_eq_true', List.any_eq_false]
  constructor
  · intro h hc
    have := h ',' hc
    simp at this
  · intro h c hc
    rcases eq_or_ne c ',' with rfl | hne
    · exact absurd hc h
    · simp [hne]

theorem rowCommaFree_key {row : Row} (hr : rowCommaFree row = true)
    {k : String} (hk : k ∈ row.map Prod.fst) : ',' ∉ k.data := by
  rcases List.mem_map.mp hk with ⟨kv, hkv, rfl⟩
  have hall := List.all_eq_true.mp hr kv hkv
  rw [Bool.and_eq_true] at hall
  exact (noComma_iff _).mp hall.1

theorem cellStr_noComma {row : Row} (hr : rowCommaFree row = true)
    (k : String) : ',' ∉ (cellStr row k).data := by
  unfold cellStr
  cases h : rowGet row k with
  | none => simp
  | some v =>
    rw [rowGet, Option.map_eq_some'] at h
    obtain ⟨kv, hfind, hv⟩ := h
    have hmem := List.mem_of_find?_eq_some hfind
    have hall := List.all_eq_true.mp hr kv hmem
    rw [Bool.and_eq_true] at hall
    subst hv
    exact (noComma_iff _).mp hall.2

theorem joinComma_count (ls : List (List Char)) (h : ∀ l ∈ ls, ',' ∉ l) :
    (joinComma ls).count ',' = ls.length - 1 := by
  induction ls with
  | nil => simp [joinComma]
  | cons x ls ih =>
    cases ls with
    | nil =>
      simp [joinComma, List.count_eq_zero.mpr (h x (by simp))]
    | cons y tl =>
      have hx : ',' ∉ x := h x (by simp)
      have hrest : ∀ l ∈ y :: tl, ',' ∉ l := fun l hl =>
        h l (List.mem_cons_of_mem _ hl)
      simp only [joinComma]
      rw [List.count_append, List.count_cons_self,
        List.count_eq_zero.mpr hx, ih hrest]
      simp only [List.length_cons]
      omega

theorem csvDataLine_count {keys : List String} {row : Row}
    (hkeys : ∀ k ∈ keys, ',' ∉ k.data) (hrow : rowCommaFree row = true) :
    (csvDataLine keys row).count ',' = keys.length - 1 := by
  unfold csvDataLine
  rw [joinComma_count]
  · simp [csvLine]
  · intro l hl
    rcases List.mem_map.mp hl with ⟨s, hsmem, rfl⟩
    rcases List.mem_map.mp hsmem with ⟨k, _, rfl⟩
    exact cellStr_noComma hrow k

theorem csvHeaderLine_count {toFile : Bool} {ks : List String}
    (hkeys : ∀ k ∈ ks, ',' ∉ k.data) :
    (csvHeaderLine toFile ks).count ',' = ks.length - 1 := by
  have hjc : (joinComma (ks.map String.data)).count ',' = ks.length - 1 := by
    rw [joinComma_count]
    · simp
    · intro l hl
      rcases List.mem_map.mp hl with ⟨k, hk, rfl⟩
      exact hkeys k hk
  unfold csvHeaderLine
  cases toFile with
  | true => simpa using hjc
  | false => simpa using hjc

theorem csvRun_frozen (toFile : Bool) (ks : List String) :
    ∀ rs : List Row, csvRun toFile ⟨true, ks⟩ rs = rs.map (csvDataLine ks) := by
  intro rs
  induction rs with
  | nil => rfl
  | cons r rs ih => simp [csvRun, emitCsvRecord, ih]

/-- C4: in tabular mode the first record freezes the column order: the
first emitted line is the header built from exactly the first record's
key sequence, every emitted line (header and data) has the same number
of comma-separated fields (equal comma counts), every later record is
projected onto the frozen keys (so keys outside them are dropped), and a
key absent from a record renders as the empty string at its frozen
position. -/
theorem csv_tabular_schema (toFile : Bool) (r0 : Row) (rs : List Row)
    (h0 : rowCommaFree r0 = true) (hs : ∀ r ∈ rs, rowCommaFree r = true) :
    csvRun toFile ⟨false, []⟩ (r0 :: rs) =
      csvHeaderLine toFile (r0.map Prod.fst) ::
        (r0 :: rs).map (csvDataLine (r0.map Prod.fst)) ∧
    (∀ l ∈ csvRun toFile ⟨false, []⟩ (r0 :: rs),
      l.count ',' = (csvHeaderLine toFile (r0.map Prod.fst)).count ',') ∧
    (∀ (r : Row) (i : ℕ) (k : String), (r0.map Prod.fst)[i]? = some k →
      rowGet r k = none → (csvLine (r0.map Prod.fst) r)[i]? = some "") := by
  have hkeys : ∀ k ∈ r0.map Prod.fst, ',' ∉ k.data :=
    fun k hk => rowCommaFree_key h0 hk
  have hout : csvRun toFile ⟨false, []⟩ (r0 :: rs) =
      csvHeaderLine toFile (r0.map Prod.fst) ::
        (r0 :: rs).map (csvDataLine (r0.map Prod.fst)) := by
    simp [csvRun, emitCsvRecord, csvRun_frozen]
  refine ⟨hout, ?_, ?_⟩
  · intro l hl
    rw [hout] at hl
    rcases List.mem_cons.mp hl with rfl | hl
    · rfl
    · rcases List.mem_map.mp hl with ⟨r, hr, rfl⟩
      rw [csvHeaderLine_count hkeys]
      rcases List.mem_cons.mp hr with rfl | hr
      · exact csvDataLine_count hkeys h0
      · exact csvDataLine_count hkeys (hs r hr)
  · intro r i k hk hnone
    have hmap : (csvLine (r0.map Prod.fst) r)[i]? =
        ((r0.map Prod.fst)[i]?).map (cellStr r) := by
      simp [csvLine, List.getElem?_map]
    rw [hmap, hk]
    simp [cellStr, hnone]

/-- Witness for C4 on three concrete records: `rowB` misses key `b`,
`rowC` misses `a` and carries an extra key `c`. -/
theorem csv_tabular_schema_witness :
    csvRun true ⟨false, []⟩ (rowA :: [rowB, rowC]) =
      csvHeaderLine true (rowA.map Prod.fst) ::
        (rowA :: [rowB, rowC]).map (csvDataLine (rowA.map Prod.fst)) ∧
    (∀ l ∈ csvRun true ⟨false, []⟩ (rowA :: [rowB, rowC]),
      l.count ',' = (csvHeaderLine true (rowA.map Prod.fst)).count ',') ∧
    (∀ (r : Row) (i : ℕ) (k : String), (rowA.map Prod.fst)[i]? = some k →
      rowGet r k = none → (csvLine (rowA.map Prod.fst) r)[i]? = some "") :=
  csv_tabular_schema true rowA [rowB, rowC] (by decide)
    (by intro r hr; rcases List.mem_cons.mp hr with rfl | hr
        · decide
        · rcases List.mem_cons.mp hr with rfl | hr
          · decide
          · simp at hr)

/-! ## C5: the self-describing encoding round-trips each record -/

theorem takeUntil_emerge (stop : Char → Bool) (s : List Char) (d : Char)
    (rest : List Char) (hs : ∀ c ∈ s, stop c = false) (hd : stop d = true) :
    takeUntil stop (s ++ d :: rest) = (s, d :: rest) := by
  induction s with
  | nil => simp [takeUntil, hd]
  | cons c cs ih =>
    have hc : stop c = false := hs c (by simp)
    have ih' := ih (fun x hx => hs x (List.mem_cons_of_mem _ hx))
    simp [takeUntil, hc, ih']

theorem parseVal_token (t : List Char) (ht : rawTokenOk t = true) (d : Char)
    (rest : List Char) (hdstop : (d == ',' || d == '\x7d') = true) :
    parseVal (t ++ d :: rest) = some (PVal.praw t, d :: rest) := by
  simp only [rawTokenOk, Bool.and_eq_true, Bool.not_eq_true',
    List.any_eq_false, bne_iff_ne, ne_eq] at ht
  obtain ⟨⟨⟨hne, hhead⟩, hsep⟩, _⟩ := ht
  obtain ⟨c, t', rfl⟩ : ∃ c t', t = c :: t' := by
    cases t with
    | nil => simp at hne
    | cons c t' => exact ⟨c, t', rfl⟩
  have hc : ¬ c = '\"' := by
    intro hcq
    exact hhead (by rw [hcq]; rfl)
  have hsep' : ∀ x ∈ c :: t', (x == ',' || x == '\x7d') = false :=
    fun x hx => Bool.eq_false_iff.mpr (hsep x hx)
  have hshape : (c :: t') ++ d :: rest = c :: (t' ++ d :: rest) := rfl
  rw [hshape]
  simp only [parseVal]
  rw [if_neg hc]
  have hemerge : takeUntil (fun x => x == ',' || x == '\x7d')
      (c :: (t' ++ d :: rest)) = (c :: t', d :: rest) := by
    have := takeUntil_emerge (fun x => x == ',' || x == '\x7d') (c :: t') d rest
      hsep' hdstop
    simpa using this
  rw [hemerge]
  simp

theorem parseVal_serialized (v : Value) (hv : valJsonOk v = true) (d : Char)
    (rest : List Char) (hd : d = ',' ∨ d = '\x7d') :
    parseVal (serVal v ++ d :: rest) = some (encVal v, d :: rest) := by
  have hdstop : (d == ',' || d == '\x7d') = true := by
    rcases hd with rfl | rfl <;> rfl
  cases v with
  | str s =>
    have hq : ∀ c ∈ s.data, (fun x => x == '\"') c = false := by
      simp only [valJsonOk, Bool.not_eq_true', List.any_eq_false] at hv
      intro c hc
      have h2 : (c == '\"' || c == '\\') = false :=
        Bool.eq_false_iff.mpr (hv c hc)
      rw [Bool.or_eq_false_iff] at h2
      exact h2.1
    have hshape : serVal (Value.str s) ++ d :: rest =
        '\"' :: (s.data ++ '\"' :: d :: rest) := by
      simp [serVal]
    rw [hshape]
    simp only [parseVal, if_true]
    rw [takeUntil_emerge (fun x => x == '\"') s.data '\"' (d :: rest) hq rfl]
    simp [encVal]
  | num q =>
    exact parseVal_token _ hv d rest hdstop
  | bool b =>
    exact parseVal_token _ hv d rest hdstop

theorem joinItems_length (ls : List (List Char)) (h : ∀ l ∈ ls, l ≠ []) :
    ls.length ≤ (joinItems ls).length := by
  induction ls with
  | nil => simp [joinItems]
  | cons x ls ih =>
    cases ls with
    | nil =>
      have hx : 0 < x.length := List.length_pos.mpr (h x (by simp))
      simpa [joinItems] using hx
    | cons y tl =>
      have hrest := ih (fun l hl => h l (List.mem_cons_of_mem _ hl))
      have hx : 0 < x.length := List.length_pos.mpr (h x (by simp))
      have hunf : joinItems (x :: y :: tl) =
          x ++ ',' :: ' ' :: joinItems (y :: tl) := rfl
      rw [hunf]
      simp only [List.length_cons] at hrest
      simp only [List.length_append, List.length_cons]
      omega

theorem parseItems_serialized :
    ∀ row : Row, rowJsonOk row = true → row ≠ [] →
      ∀ fuel : ℕ, row.length ≤ fuel →
      parseItems fuel (joinItems (row.map serItem) ++ ['\x7d']) =
        some (encRow row) := by
  intro row
  induction row with
  | nil => intro _ hne; exact absurd rfl hne
  | cons kv tl ih =>
    intro hok _ fuel hfuel
    have hsplit := hok
    simp only [rowJsonOk, List.all_cons, Bool.and_eq_true] at hsplit
    obtain ⟨⟨hkeyB, hval⟩, htl⟩ := hsplit
    rw [Bool.not_eq_true'] at hkeyB
    have hkeyf : ∀ c ∈ kv.1.data, (fun x => x == '\"') c = false := by
      intro c hc
      have hcc : (c == '\"' || c == '\\') = false :=
        Bool.eq_false_iff.mpr (List.any_eq_false.mp hkeyB c hc)
      rw [Bool.or_eq_false_iff] at hcc
      exact hcc.1
    obtain ⟨f, rfl⟩ : ∃ f, fuel = f + 1 := by
      cases fuel with
      | zero => simp at hfuel
      | succ f => exact ⟨f, rfl⟩
    cases tl with
    | nil =>
      have hinput : joinItems ([kv].map serItem) ++ ['\x7d'] =
          '\"' :: (kv.1.data ++
            ('\"' :: ':' :: ' ' :: (serVal kv.2 ++ ['\x7d']))) := by
        simp [joinItems, serItem]
      have htu := takeUntil_emerge (fun x => x == '\"') kv.1.data '\"'
        (':' :: ' ' :: (serVal kv.2 ++ ['\x7d'])) hkeyf rfl
      have hpv := parseVal_serialized kv.2 hval '\x7d' [] (Or.inr rfl)
      rw [hinput]
      simp [parseItems, htu, hpv, encRow]
    | cons kv2 tl2 =>
      have hinput : joinItems ((kv :: kv2 :: tl2).map serItem) ++ ['\x7d'] =
          '\"' :: (kv.1.data ++ ('\"' :: ':' :: ' ' ::
            (serVal kv.2 ++ ',' :: ' ' ::
              (joinItems ((kv2 :: tl2).map serItem) ++ ['\x7d'])))) := by
        simp [joinItems, serItem]
      have htu := takeUntil_emerge (fun x => x == '\"') kv.1.data '\"'
        (':' :: ' ' :: (serVal kv.2 ++ ',' :: ' ' ::
          (joinItems ((kv2 :: tl2).map serItem) ++ ['\x7d']))) hkeyf rfl
      have hpv := parseVal_serialized kv.2 hval ','
        (' ' :: (joinItems ((kv2 :: tl2).map serItem) ++ ['\x7d'])) (Or.inl rfl)
      have hrec := ih htl (by simp) f
        (by simp only [List.length_cons] at hfuel ⊢; omega)
      simp only [List.map_cons] at htu hpv hrec
      rw [hinput]
      simp [parseItems, htu, hpv, hrec, encRow]

/-- C5: in self-describing (jsonl) mode, emitting a record leaves the
sink state untouched (the frozen csv schema plays no role and the line
depends on the record alone), and the emitted line parses back to a
mapping with exactly that record's keys in order, each carrying the
serialized form of that record's value — the serialize-then-parse round
trip is the identity on the tick's record (up to the textual rendering
of scalars). -/
theorem jsonl_roundtrip (st : SinkState) (row : Row)
    (h : rowJsonOk row = true) :
    emitJsonl st row = (st, [serObj row]) ∧
    parseObj (serObj row) = some (encRow row) ∧
    (encRow row).map Prod.fst = row.map (fun kv => kv.1.data) := by
  refine ⟨rfl, ?_, by simp [encRow, List.map_map, Function.comp]⟩
  cases row with
  | nil => rfl
  | cons kv tl =>
    have hrowlen : (kv :: tl).length ≤
        (joinItems ((kv :: tl).map serItem)).length := by
      have := joinItems_length ((kv :: tl).map serItem) (by
        intro l hl
        rcases List.mem_map.mp hl with ⟨kv', _, rfl⟩
        simp [serItem])
      simpa using this
    have hJ : ∃ X, joinItems ((kv :: tl).map serItem) = '\"' :: X := by
      cases tl with
      | nil => exact ⟨_, rfl⟩
      | cons b tb => exact ⟨_, rfl⟩
    obtain ⟨X, hX⟩ := hJ
    have hne : ¬ (joinItems ((kv :: tl).map serItem) ++ ['\x7d'] = ['\x7d']) := by
      rw [hX]
      intro he
      have hlen := congrArg List.length he
      simp only [List.length_append, List.length_cons, List.length_nil] at hlen
      omega
    show parseObj ('\x7b' :: (joinItems ((kv :: tl).map serItem) ++ ['\x7d'])) =
      some (encRow (kv :: tl))
    simp only [parseObj, if_true]
    rw [if_neg hne]
    exact parseItems_serialized (kv :: tl) h (by simp) _
      (le_trans hrowlen (by simp))

/-- Witness for C5: a three-key record (number, datetime string,
boolean) through a sink whose frozen csv schema is the unrelated
`["zz"]`: the state is unchanged and the line round-trips. -/
theorem jsonl_roundtrip_witness :
    emitJsonl ⟨true, ["zz"]⟩ jsonRow = (⟨true, ["zz"]⟩, [serObj jsonRow]) ∧
    parseObj (serObj jsonRow) = some (encRow jsonRow) ∧
    (encRow jsonRow).map Prod.fst = jsonRow.map (fun kv => kv.1.data) :=
  jsonl_roundtrip ⟨true, ["zz"]⟩ jsonRow (by
    have h3 : toString ((3 : ℚ)) = "3" := by norm_num [toString]; decide
    simp only [jsonRow, rowJsonOk, List.all_cons, List.all_nil, valJsonOk, h3]
    decide)
